import Mathlib

/-!
Verification of the interactive control core of the TMWT settings browser.

The Rust source (src/app.rs, src/settings_editor.rs, src/network_editor.rs,
src/event.rs, src/edit_ui.rs) is shallowly embedded below:

* `SettingValue`, `SettingOption`, `EditorType` mirror the data model of
  `settings_editor.rs`.  Rust `f64` fields are modelled as rationals `ℚ`
  (the claims about sliders concern exact clamping, which `f64`'s
  `min`/`max` also compute exactly on their arguments).
* `SettingsItem` is the catalog record (`CatalogItem` of the spec);
  `settings.rs` itself is data, not logic, and is not part of src/, so the
  record keeps exactly the fields the core reads (`name`, `description`,
  `category`, `keywords`, `editor_key`, `can_edit_inline`).  The category
  enum is modelled as `String`.
* An editor trait object is a record `SEditor σ` of pure functions over an
  abstract backing-store type `σ`; fallible Rust `Result` values become
  `Except String`.
* `usize` subtraction in the guards `idx < len - 1` is wrapping 64-bit
  subtraction (`usizeSubOne`), mirroring release-build Rust semantics
  (debug builds panic on the same inputs).
* The event-loop body of `run_app` becomes the step function
  `handleEvent`, which also returns the trace of values passed to the
  editor's `set_value` so that commit behaviour can be stated.
-/

namespace TMWT

/-- Tagged union of setting values (`SettingValue` in settings_editor.rs).
`f64` is modelled as `ℚ`; the opaque JSON payload of `Custom` is modelled
as a string. -/
inductive SettingValue where
  | boolV (b : Bool)
  | stringV (s : String)
  | integerV (i : Int)
  | floatV (x : ℚ)
  | selection (s : String)
  | resolution (width height : Nat)
  | custom (v : String)
deriving DecidableEq

/-- One selectable choice (`SettingOption` in settings_editor.rs). -/
structure SettingOption where
  label : String
  value : SettingValue
  description : Option String
deriving DecidableEq

/-- Editor interaction kinds (`EditorType` in settings_editor.rs). -/
inductive EditorType where
  | toggle
  | dropdown
  | slider (min max step : ℚ)
  | textInput (multiline : Bool)
  | numberInput (min max : Option Int)
  | resolutionPicker
  | custom
deriving DecidableEq

/-- Catalog item (`SettingsItem`); only the fields read by the control
core are kept, the category enum is modelled as a string. -/
structure SettingsItem where
  name : String
  description : Option String
  category : String
  keywords : List String
  editorKey : Option String
  canEditInline : Bool
deriving DecidableEq

/-- `leadMatch needle hay` is true when `needle` occurs at the very start
of `hay` (helper for the substring test of Rust `str::contains`). -/
def leadMatch : List Char → List Char → Bool
  | [], _ => true
  | _ :: _, [] => false
  | a :: as, b :: bs => a == b && leadMatch as bs

/-- `hasSub needle hay` is true when `needle` occurs contiguously anywhere
in `hay`; this is the substring search of Rust `str::contains`. -/
def hasSub (needle : List Char) : List Char → Bool
  | [] => needle.isEmpty
  | c :: rest => leadMatch needle (c :: rest) || hasSub needle rest

/-- Rust `haystack.contains(needle)` on strings. -/
def strContains (hay needle : String) : Bool :=
  hasSub needle.data hay.data

/-- Rust `String::to_lowercase`, modelled per-character. -/
def lowerStr (s : String) : String :=
  ⟨s.data.map Char.toLower⟩

/-- The search predicate of `App::filter_items` (src/app.rs lines 82-98):
an empty query matches everything, otherwise the lowercased name,
description (absent treated as empty) or any keyword must contain the
lowercased query. -/
def searchMatch (query : String) (item : SettingsItem) : Bool :=
  if query.data.isEmpty then
    true
  else
    strContains (lowerStr item.name) (lowerStr query)
      || strContains (lowerStr (item.description.getD "")) (lowerStr query)
      || item.keywords.any (fun k => strContains (lowerStr k) (lowerStr query))

/-- The pure content of `App::filter_items` (src/app.rs lines 75-104):
the ordered sub-list of `items` in the selected category that pass the
search predicate. -/
def filterItemsFun (items : List SettingsItem) (selectedCategory : String)
    (query : String) : List SettingsItem :=
  items.filter (fun item =>
    (item.category == selectedCategory) && searchMatch query item)

/-- An editor trait object (`SettingEditor` in settings_editor.rs),
modelled as pure functions over a backing-store type `σ`.  `set_value`
returns the new backing store on success; every fallible operation is an
`Except String`. -/
structure SEditor (σ : Type) where
  getCurrentValue : σ → Except String SettingValue
  getAvailableOptions : σ → Except String (List SettingOption)
  setValue : σ → SettingValue → Except String σ
  validateValue : σ → SettingValue → Except String Bool
  editorType : EditorType
  requiresAdmin : Bool

/-- The editor kinds of the fixed registry `create_editor`
(settings_editor.rs lines 412-424): each registered key together with the
`get_editor_type` of the editor it constructs. -/
def createEditorKind (settingType : String) : Option EditorType :=
  if settingType = "display_resolution" then some .resolutionPicker
  else if settingType = "power_plan" then some .dropdown
  else if settingType = "audio_device" then some .dropdown
  else if settingType = "wifi_adapter_toggle" then some .toggle
  else if settingType = "ethernet_adapter_toggle" then some .toggle
  else if settingType = "wifi_dns" then some .dropdown
  else if settingType = "ethernet_dns" then some .dropdown
  else if settingType = "wifi_power_mode" then some .dropdown
  else none

/-- Input modes (`InputMode` in app.rs). -/
inductive InputMode where
  | normal
  | search
  | edit
deriving DecidableEq

/-- Focus areas (`FocusArea` in app.rs). -/
inductive FocusArea where
  | categories
  | items
deriving DecidableEq

/-- An open edit session (`EditState` in app.rs). -/
structure EditState (σ : Type) where
  itemName : String
  editor : SEditor σ
  editorType : EditorType
  currentValue : SettingValue
  pendingValue : Option SettingValue
  options : List SettingOption
  selectedOptionIndex : Nat
  scrollOffset : Nat
  errorMessage : Option String

/-- The application state (`App` in app.rs).  The category list of the
catalog is a list of category names. -/
structure App (σ : Type) where
  categories : List String
  items : List SettingsItem
  filteredItems : List SettingsItem
  categoryIndex : Nat
  itemIndex : Nat
  focusArea : FocusArea
  inputMode : InputMode
  searchQuery : String
  statusMessage : Option String
  shouldQuit : Bool
  editState : Option (EditState σ)

/-- Key codes relevant to the event loop; `other` stands for every key
the loop ignores. -/
inductive KeyCode where
  | char (c : Char)
  | enter
  | esc
  | tab
  | up
  | down
  | left
  | right
  | backspace
  | other
deriving DecidableEq

/-- A key event: code plus the only modifier the loop reads (SHIFT). -/
structure KeyEvent where
  code : KeyCode
  shift : Bool
deriving DecidableEq

/-- Events delivered by the event source (`Event` in event.rs). -/
inductive Event where
  | tick
  | key (k : KeyEvent)
  | mouse
  | resize (w h : Nat)

/-- Wrapping 64-bit `usize` decrement: Rust's `len - 1` in the clamp
guards, which wraps to `2 ^ 64 - 1` when `len = 0` (release semantics;
debug builds panic there). -/
def usizeSubOne (n : Nat) : Nat :=
  (n + (2 ^ 64 - 1)) % 2 ^ 64

/-- `App::filter_items` as a state update (src/app.rs lines 75-104):
recompute the filtered view for the current category and query and reset
`item_index` to 0.  Rust indexes `categories[category_index]`; the model
reads the category with a default (the Rust code would panic on an
out-of-range index). -/
def App.runFilter {σ : Type} (app : App σ) : App σ :=
  { app with
      filteredItems :=
        filterItemsFun app.items (app.categories.getD app.categoryIndex "")
          app.searchQuery,
      itemIndex := 0 }

/-- `App::cancel_edit` (src/app.rs lines 156-160). -/
def App.cancelEdit {σ : Type} (app : App σ) : App σ :=
  { app with
      inputMode := .normal,
      editState := none,
      statusMessage := some "Edit cancelled" }

/-- `App::enter_edit_mode` (src/app.rs lines 106-133), with the registry
`create_editor` abstracted as `reg`.  Returns the updated application and
`some errorText` when entry was refused (the caller surfaces it); on any
failure the application is returned unchanged. -/
def App.enterEditMode {σ : Type} (reg : String → Option (SEditor σ))
    (bk : σ) (app : App σ) (item : SettingsItem) : App σ × Option String :=
  match item.editorKey with
  | none => (app, some "This setting cannot be edited inline")
  | some editorKey =>
    match reg editorKey with
    | none => (app, some "No editor available for this setting")
    | some editor =>
      match editor.getCurrentValue bk with
      | .error e => (app, some e)
      | .ok currentValue =>
        match editor.getAvailableOptions bk with
        | .error e => (app, some e)
        | .ok options =>
          ({ app with
              editState := some
                { itemName := item.name
                  editor := editor
                  editorType := editor.editorType
                  currentValue := currentValue
                  pendingValue := some currentValue
                  options := options
                  selectedOptionIndex := 0
                  scrollOffset := 0
                  errorMessage := none }
              inputMode := .edit },
            none)

/-- Result of `App::save_edit`: updated application, updated backing
store, the trace of values passed to `set_value`, and `some errorText`
when the save bailed (the caller surfaces it as a status message). -/
structure SaveOut (σ : Type) where
  app : App σ
  backing : σ
  setCalls : List SettingValue
  err : Option String

/-- `App::save_edit` (src/app.rs lines 135-154): validate the pending
value, commit it with `set_value` only when validation returns true, then
report success and close the session.  Any bail leaves application and
backing store as they were (a failed `set_value` call is still recorded
in the trace). -/
def App.saveEdit {σ : Type} (bk : σ) (app : App σ) : SaveOut σ :=
  match app.editState with
  | none => ⟨app, bk, [], none⟩
  | some editState =>
    match editState.pendingValue with
    | none => ⟨app, bk, [], some "No value to save"⟩
    | some pendingValue =>
      match editState.editor.validateValue bk pendingValue with
      | .error e => ⟨app, bk, [], some e⟩
      | .ok false => ⟨app, bk, [], some "Invalid value"⟩
      | .ok true =>
        match editState.editor.setValue bk pendingValue with
        | .error e => ⟨app, bk, [pendingValue], some e⟩
        | .ok bk' =>
          ⟨{ app with
              statusMessage :=
                some ("✓ " ++ editState.itemName ++ " updated successfully"),
              inputMode := .normal,
              editState := none },
            bk', [pendingValue], none⟩

/-- The confirm action (Enter or Space) of the Edit mode key handler
(src/app.rs lines 289-307), acting on the open session. -/
def EditState.confirmPending {σ : Type} (es : EditState σ) : EditState σ :=
  match es.editorType with
  | .toggle =>
    let newVal :=
      match es.pendingValue with
      | some (.boolV b) => SettingValue.boolV (!b)
      | _ => SettingValue.boolV true
    { es with pendingValue := some newVal }
  | .dropdown | .resolutionPicker =>
    match es.options.get? es.selectedOptionIndex with
    | some option => { es with pendingValue := some option.value }
    | none => es
  | _ => es

/-- The Up arm of the Edit mode key handler (src/app.rs lines 308-312). -/
def EditState.optionUp {σ : Type} (es : EditState σ) : EditState σ :=
  if es.selectedOptionIndex > 0 then
    { es with selectedOptionIndex := es.selectedOptionIndex - 1 }
  else es

/-- The Down arm of the Edit mode key handler (src/app.rs lines
313-317); the guard uses wrapping `usize` subtraction. -/
def EditState.optionDown {σ : Type} (es : EditState σ) : EditState σ :=
  if es.selectedOptionIndex < usizeSubOne es.options.length then
    { es with selectedOptionIndex := es.selectedOptionIndex + 1 }
  else es

/-- The Left arm of the Edit mode key handler (src/app.rs lines 318-329):
on a slider with a numeric pending value, subtract `step` (or
`step * 0.1` with SHIFT held) and clamp below at `min`. -/
def EditState.sliderLeftKey {σ : Type} (shift : Bool) (es : EditState σ) :
    EditState σ :=
  match es.editorType with
  | .slider mn _mx st =>
    match es.pendingValue with
    | some (.floatV v) =>
      let adjustment := if shift then st * (1 / 10) else st
      { es with pendingValue := some (.floatV (max (v - adjustment) mn)) }
    | _ => es
  | _ => es

/-- The Right arm of the Edit mode key handler (src/app.rs lines
330-341): add `step` (or `step * 0.1` with SHIFT) and clamp above at
`max`. -/
def EditState.sliderRightKey {σ : Type} (shift : Bool) (es : EditState σ) :
    EditState σ :=
  match es.editorType with
  | .slider _mn mx st =>
    match es.pendingValue with
    | some (.floatV v) =>
      let adjustment := if shift then st * (1 / 10) else st
      { es with pendingValue := some (.floatV (min (v + adjustment) mx)) }
    | _ => es
  | _ => es

/-- Result of one iteration of the event loop: updated application,
updated backing store, and the trace of values passed to `set_value`
while handling the event. -/
structure StepOut (σ : Type) where
  app : App σ
  backing : σ
  setCalls : List SettingValue

/-- The Normal-mode key dispatch of `run_app` (src/app.rs lines 186-258).
`reg` is the editor registry (`create_editor`), `launchRes` the outcome
of the external launch collaborator for a given item. -/
def handleNormalKey {σ : Type} (reg : String → Option (SEditor σ))
    (launchRes : SettingsItem → Except String Unit) (bk : σ) (app : App σ)
    (k : KeyEvent) : App σ :=
  match k.code with
  | .char c =>
    if c = 'q' then { app with shouldQuit := true }
    else if c = '/' then
      { app with inputMode := .search, searchQuery := "" }
    else if c = 'e' then
      if app.focusArea = .items then
        match app.filteredItems.get? app.itemIndex with
        | some item =>
          if item.canEditInline then
            match app.enterEditMode reg bk item with
            | (app', none) => app'
            | (app', some e) =>
              { app' with statusMessage := some ("Error: " ++ e) }
          else
            { app with
                statusMessage := some "This setting cannot be edited inline" }
        | none => app
      else app
    else app
  | .tab =>
    { app with
        focusArea :=
          match app.focusArea with
          | .categories => .items
          | .items => .categories }
  | .down =>
    match app.focusArea with
    | .categories =>
      if app.categoryIndex < usizeSubOne app.categories.length then
        App.runFilter { app with categoryIndex := app.categoryIndex + 1 }
      else app
    | .items =>
      if app.itemIndex < usizeSubOne app.filteredItems.length then
        { app with itemIndex := app.itemIndex + 1 }
      else app
  | .up =>
    match app.focusArea with
    | .categories =>
      if app.categoryIndex > 0 then
        App.runFilter { app with categoryIndex := app.categoryIndex - 1 }
      else app
    | .items =>
      if app.itemIndex > 0 then { app with itemIndex := app.itemIndex - 1 }
      else app
  | .enter =>
    if app.focusArea = .items then
      match app.filteredItems.get? app.itemIndex with
      | some item =>
        if item.canEditInline then
          match app.enterEditMode reg bk item with
          | (app', none) => app'
          | (app', some e) =>
            { app' with statusMessage := some ("Error: " ++ e) }
        else
          match launchRes item with
          | .ok _ => app
          | .error e => { app with statusMessage := some ("Error: " ++ e) }
      | none => app
    else app
  | _ => app

/-- The Search-mode key dispatch of `run_app` (src/app.rs lines 259-277). -/
def handleSearchKey {σ : Type} (app : App σ) (k : KeyEvent) : App σ :=
  match k.code with
  | .enter => { app with inputMode := .normal }
  | .esc =>
    App.runFilter { app with inputMode := .normal, searchQuery := "" }
  | .char c =>
    App.runFilter { app with searchQuery := ⟨app.searchQuery.data ++ [c]⟩ }
  | .backspace =>
    App.runFilter { app with searchQuery := ⟨app.searchQuery.data.dropLast⟩ }
  | _ => app

/-- The Edit-mode key dispatch of `run_app` (src/app.rs lines 278-345):
nothing happens unless a session is open; Esc cancels, `s`/`S` saves, the
remaining keys mutate the open session per its editor kind. -/
def handleEditKey {σ : Type} (bk : σ) (app : App σ) (k : KeyEvent) :
    StepOut σ :=
  match app.editState with
  | none => ⟨app, bk, []⟩
  | some es =>
    match k.code with
    | .esc => ⟨app.cancelEdit, bk, []⟩
    | .char c =>
      if c = 's' ∨ c = 'S' then
        let out := App.saveEdit bk app
        match out.err with
        | none => ⟨out.app, out.backing, out.setCalls⟩
        | some e =>
          ⟨{ out.app with statusMessage := some ("Save failed: " ++ e) },
            out.backing, out.setCalls⟩
      else if c = ' ' then
        ⟨{ app with editState := some es.confirmPending }, bk, []⟩
      else ⟨app, bk, []⟩
    | .enter => ⟨{ app with editState := some es.confirmPending }, bk, []⟩
    | .up => ⟨{ app with editState := some es.optionUp }, bk, []⟩
    | .down => ⟨{ app with editState := some es.optionDown }, bk, []⟩
    | .left =>
      ⟨{ app with editState := some (es.sliderLeftKey k.shift) }, bk, []⟩
    | .right =>
      ⟨{ app with editState := some (es.sliderRightKey k.shift) }, bk, []⟩
    | _ => ⟨app, bk, []⟩

/-- One iteration of the event dispatch of `run_app` (src/app.rs lines
182-350).  `Tick`, `Mouse` and `Resize` events are ignored; key events
are routed by the current input mode. -/
def handleEvent {σ : Type} (reg : String → Option (SEditor σ))
    (launchRes : SettingsItem → Except String Unit) (bk : σ) (app : App σ) :
    Event → StepOut σ
  | .tick => ⟨app, bk, []⟩
  | .mouse => ⟨app, bk, []⟩
  | .resize _ _ => ⟨app, bk, []⟩
  | .key k =>
    match app.inputMode with
    | .normal => ⟨handleNormalKey reg launchRes bk app k, bk, []⟩
    | .search => ⟨handleSearchKey app k, bk, []⟩
    | .edit => handleEditKey bk app k


/-- One whole run of the event loop over a list of events, threading the
application state and the backing store (`run_app`'s loop without
rendering). -/
def runEvents {σ : Type} (reg : String → Option (SEditor σ))
    (launchRes : SettingsItem → Except String Unit) :
    σ → App σ → List Event → App σ × σ
  | bk, app, [] => (app, bk)
  | bk, app, e :: rest =>
    runEvents reg launchRes (handleEvent reg launchRes bk app e).backing
      (handleEvent reg launchRes bk app e).app rest

/-! ## Predicates taken from the wording of the specification -/

/-- Case-insensitive substring relation, as the spec words it: the
lowercased haystack contains the lowercased needle. -/
def ciContains (hay needle : String) : Prop :=
  strContains (lowerStr hay) (lowerStr needle) = true

/-- The spec's matching predicate for a non-empty query: the name, the
description, or at least one keyword contains the query
case-insensitively. -/
def claimSearchHit (query : String) (item : SettingsItem) : Prop :=
  ciContains item.name query ∨ ciContains (item.description.getD "") query ∨
    ∃ k ∈ item.keywords, ciContains k query

/-- The fine/coarse adjustment a Left/Right key applies to a slider:
`step`, or `step * 0.1` when SHIFT is held (src/app.rs lines 321-325). -/
def sliderAdjust (shift : Bool) (st : ℚ) : ℚ :=
  if shift then st * (1 / 10) else st

/-- One Right-key slider movement: add the adjustment, clamp above at
`max` (src/app.rs line 338). -/
def sliderRightStep (mx a x : ℚ) : ℚ := min (x + a) mx

/-- One Left-key slider movement: subtract the adjustment, clamp below at
`min` (src/app.rs line 326). -/
def sliderLeftStep (mn a x : ℚ) : ℚ := max (x - a) mn

/-! ## Concrete data used by witnesses and counterexamples -/

/-- A small catalog item in category "General" whose name contains
"apple" case-insensitively. -/
def demoItemA : SettingsItem :=
  ⟨"Apple Display", some "fruit screen", "General", ["red"], none, false⟩

/-- A second "General" item matching "apple" only through a keyword. -/
def demoItemB : SettingsItem :=
  ⟨"Bread", none, "General", ["food", "APPLE pie"], none, false⟩

/-- An item in a different category. -/
def demoItemC : SettingsItem :=
  ⟨"Cheese", some "dairy", "Network", [], none, false⟩

/-- A toggle editor over a `Bool` backing store that accepts exactly
boolean values; used to instantiate theorems at concrete inputs. -/
def boolToggleEditor : SEditor Bool :=
  { getCurrentValue := fun b => .ok (.boolV b)
    getAvailableOptions := fun _ => .ok []
    setValue := fun _ v =>
      match v with
      | .boolV b => .ok b
      | _ => .error "Invalid value type for network adapter toggle"
    validateValue := fun _ v =>
      match v with
      | .boolV _ => .ok true
      | _ => .ok false
    editorType := .toggle
    requiresAdmin := true }

/-- A registry carrying only the toggle editor, under the key the source
registry uses for the Wi-Fi adapter toggle. -/
def demoReg : String → Option (SEditor Bool) := fun key =>
  if key = "wifi_adapter_toggle" then some boolToggleEditor else none

/-- A launch collaborator that always succeeds. -/
def demoLaunch : SettingsItem → Except String Unit := fun _ => .ok ()

/-- An application state in Edit mode holding the session `es`. -/
def demoEditApp {σ : Type} (es : EditState σ) : App σ :=
  { categories := ["General"]
    items := [demoItemA]
    filteredItems := [demoItemA]
    categoryIndex := 0
    itemIndex := 0
    focusArea := .items
    inputMode := .edit
    searchQuery := ""
    statusMessage := none
    shouldQuit := false
    editState := some es }

/-- A Normal-mode application state over the `Bool` backing store. -/
def demoNormalApp : App Bool :=
  { categories := ["General", "Network"]
    items := [demoItemA, demoItemB, demoItemC]
    filteredItems := [demoItemA, demoItemB]
    categoryIndex := 0
    itemIndex := 0
    focusArea := .items
    inputMode := .normal
    searchQuery := ""
    statusMessage := none
    shouldQuit := false
    editState := none }

/-- An inline-editable catalog item bound to the demo registry key. -/
def demoEditableItem : SettingsItem :=
  ⟨"Wi-Fi Adapter", some "toggle the wifi adapter", "Network", ["wifi"],
    some "wifi_adapter_toggle", true⟩

/-- A Toggle session whose pending value is a non-boolean (integer 3). -/
def demoInvalidSession : EditState Bool :=
  ⟨"Wi-Fi", boolToggleEditor, .toggle, .boolV true, some (.integerV 3), [], 0,
    0, none⟩

/-- A slider editor with range 0..100 and step 10 over a `Bool` store. -/
def demoSliderEditor : SEditor Bool :=
  { getCurrentValue := fun _ => .ok (.floatV 95)
    getAvailableOptions := fun _ => .ok []
    setValue := fun b _ => .ok b
    validateValue := fun _ _ => .ok true
    editorType := .slider 0 100 10
    requiresAdmin := false }

/-- An open slider session sitting at value 95 of 0..100. -/
def demoSliderSession : EditState Bool :=
  ⟨"Brightness", demoSliderEditor, .slider 0 100 10, .floatV 95,
    some (.floatV 95), [], 0, 0, none⟩

/-- An editor over a backing store that records every committed value,
reporting kind Custom and accepting everything. -/
def traceEditor : SEditor (List SettingValue) :=
  { getCurrentValue := fun _ => .ok (.selection "x")
    getAvailableOptions := fun _ => .ok []
    setValue := fun bk v => .ok (bk ++ [v])
    validateValue := fun _ _ => .ok true
    editorType := .custom
    requiresAdmin := false }

/-- An open session of kind Custom bound to the recording editor. -/
def demoCustomSession : EditState (List SettingValue) :=
  ⟨"Custom Item", traceEditor, .custom, .selection "x", some (.selection "x"),
    [], 0, 0, none⟩

/-- An open session of kind TextInput. -/
def demoTextSession : EditState Bool :=
  ⟨"Device Name", boolToggleEditor, .textInput false, .stringV "pc",
    some (.stringV "pc"), [], 0, 0, none⟩

/-- A dropdown editor over a `Bool` store. -/
def demoDropdownEditor : SEditor Bool :=
  { getCurrentValue := fun _ => .ok (.selection "a")
    getAvailableOptions := fun _ => .ok []
    setValue := fun b _ => .ok b
    validateValue := fun _ _ => .ok true
    editorType := .dropdown
    requiresAdmin := false }

/-- An open Dropdown session whose options list is empty. -/
def demoEmptyDropdownSession : EditState Bool :=
  ⟨"Power Plan", demoDropdownEditor, .dropdown, .selection "a",
    some (.selection "a"), [], 0, 0, none⟩

/-- A selectable option labelled by its selection tag. -/
def demoOpt (s : String) : SettingOption := ⟨s, .selection s, none⟩

/-- An open Dropdown session with three options, positioned on the last
one. -/
def demo3Dropdown : EditState Bool :=
  ⟨"Power Plan", demoDropdownEditor, .dropdown, .selection "a",
    some (.selection "a"), [demoOpt "a", demoOpt "b", demoOpt "c"], 2, 0,
    none⟩

/-- A freshly started application over one catalog item. -/
def demoApp0 : App Bool :=
  { categories := ["General"]
    items := [demoItemA]
    filteredItems := [demoItemA]
    categoryIndex := 0
    itemIndex := 0
    focusArea := .categories
    inputMode := .normal
    searchQuery := ""
    statusMessage := none
    shouldQuit := false
    editState := none }

/-- Key presses that search for "z" (matching nothing), return to Normal,
focus the item list and press Down on the empty view. -/
def demoEventsC3 : List Event :=
  [.key ⟨.char '/', false⟩, .key ⟨.char 'z', false⟩, .key ⟨.enter, false⟩,
    .key ⟨.tab, false⟩, .key ⟨.down, false⟩]

/-- The application state after running `demoEventsC3` from `demoApp0`. -/
def c3final : App Bool :=
  (runEvents demoReg demoLaunch true demoApp0 demoEventsC3).1

/-- A freshly started application over two catalog items. -/
def demoApp1 : App Bool :=
  { categories := ["General"]
    items := [demoItemA, demoItemB]
    filteredItems := [demoItemA, demoItemB]
    categoryIndex := 0
    itemIndex := 0
    focusArea := .categories
    inputMode := .normal
    searchQuery := ""
    statusMessage := none
    shouldQuit := false
    editState := none }

/-- Key presses that search for "bread", return to Normal keeping the
query, then press `/` (which clears the query without re-filtering). -/
def demoEventsC4 : List Event :=
  [.key ⟨.char '/', false⟩, .key ⟨.char 'b', false⟩, .key ⟨.char 'r', false⟩,
    .key ⟨.char 'e', false⟩, .key ⟨.char 'a', false⟩, .key ⟨.char 'd', false⟩,
    .key ⟨.enter, false⟩, .key ⟨.char '/', false⟩]

/-- The application state after running `demoEventsC4` from `demoApp1`. -/
def c4final : App Bool :=
  (runEvents demoReg demoLaunch true demoApp1 demoEventsC4).1

/-- A Search-mode state whose filtered view was computed for the query
"bread". -/
def c4witApp : App Bool :=
  { demoApp1 with
      inputMode := .search
      searchQuery := "bread"
      filteredItems := [demoItemB]
      itemIndex := 0 }

/-! ## Helper lemmas about `App.saveEdit` and the wrapping decrement -/

/-- When `save_edit` passed no value to `set_value`, the backing store is
unchanged. -/
lemma saveEdit_no_calls_backing {σ : Type} (bk : σ) (app : App σ) :
    (App.saveEdit bk app).setCalls = [] → (App.saveEdit bk app).backing = bk := by
  cases hes : app.editState with
  | none => simp [App.saveEdit, hes]
  | some es =>
    cases hpv : es.pendingValue with
    | none => simp [App.saveEdit, hes, hpv]
    | some pv =>
      cases hv : es.editor.validateValue bk pv with
      | error e => simp [App.saveEdit, hes, hpv, hv]
      | ok b =>
        cases b with
        | false => simp [App.saveEdit, hes, hpv, hv]
        | true =>
          cases hs : es.editor.setValue bk pv with
          | error e => simp [App.saveEdit, hes, hpv, hv, hs]
          | ok bk' => simp [App.saveEdit, hes, hpv, hv, hs]

/-- `save_edit` either passes nothing to `set_value`, or passes exactly
the pending value of the open session after its validation returned true,
and the backing store then changes only to a successful result of that
very call. -/
lemma saveEdit_calls_shape {σ : Type} (bk : σ) (app : App σ) :
    (App.saveEdit bk app).setCalls = [] ∨
    ∃ es pv, app.editState = some es ∧ es.pendingValue = some pv ∧
      es.editor.validateValue bk pv = .ok true ∧
      (App.saveEdit bk app).setCalls = [pv] ∧
      ((App.saveEdit bk app).backing = bk ∨
        es.editor.setValue bk pv = .ok ((App.saveEdit bk app).backing)) := by
  cases hes : app.editState with
  | none => exact Or.inl (by simp [App.saveEdit, hes])
  | some es =>
    cases hpv : es.pendingValue with
    | none => exact Or.inl (by simp [App.saveEdit, hes, hpv])
    | some pv =>
      cases hv : es.editor.validateValue bk pv with
      | error e => exact Or.inl (by simp [App.saveEdit, hes, hpv, hv])
      | ok b =>
        cases b with
        | false => exact Or.inl (by simp [App.saveEdit, hes, hpv, hv])
        | true =>
          cases hs : es.editor.setValue bk pv with
          | error e =>
            exact Or.inr ⟨es, pv, rfl, hpv, hv,
              by simp [App.saveEdit, hes, hpv, hv, hs],
              Or.inl (by simp [App.saveEdit, hes, hpv, hv, hs])⟩
          | ok bk' =>
            exact Or.inr ⟨es, pv, rfl, hpv, hv,
              by simp [App.saveEdit, hes, hpv, hv, hs],
              Or.inr (by simp [App.saveEdit, hes, hpv, hv, hs])⟩

/-- `save_edit` on a pending value whose validation returns false bails
with "Invalid value" and changes nothing. -/
lemma saveEdit_invalid {σ : Type} (bk : σ) (app : App σ) (es : EditState σ)
    (pv : SettingValue) (h1 : app.editState = some es)
    (h2 : es.pendingValue = some pv)
    (h3 : es.editor.validateValue bk pv = .ok false) :
    App.saveEdit bk app = ⟨app, bk, [], some "Invalid value"⟩ := by
  simp only [App.saveEdit, h1, h2, h3]

/-- `save_edit` on a validated pending value whose commit succeeds closes
the session with a success status. -/
lemma saveEdit_commit {σ : Type} (bk : σ) (app : App σ) (es : EditState σ)
    (pv : SettingValue) (bk' : σ) (h1 : app.editState = some es)
    (h2 : es.pendingValue = some pv)
    (h3 : es.editor.validateValue bk pv = .ok true)
    (h4 : es.editor.setValue bk pv = .ok bk') :
    App.saveEdit bk app =
      ⟨{ app with
          statusMessage :=
            some ("✓ " ++ es.itemName ++ " updated successfully"),
          inputMode := .normal,
          editState := none }, bk', [pv], none⟩ := by
  simp only [App.saveEdit, h1, h2, h3, h4]

/-- The wrapping `usize` decrement agrees with plain decrement on every
positive length below `2 ^ 64`. -/
lemma usizeSubOne_eq {n : Nat} (h1 : 0 < n) (h2 : n < 2 ^ 64) :
    usizeSubOne n = n - 1 := by
  unfold usizeSubOne
  have hn : n + (2 ^ 64 - 1) = (n - 1) + 2 ^ 64 := by omega
  rw [hn, Nat.add_mod_right]
  exact Nat.mod_eq_of_lt (by omega)

/-! ## C1: Save commits only validated pending values; Cancel never
commits -/

/-- C1: over every event, (i) if no `set_value` call happened the backing
store is unchanged; (ii) any `set_value` call happens only while an edit
session is open, only on the save key `s`/`S`, and passes exactly the
session's pending value after `validate_value` returned true — the
backing store moves only to a successful result of that call; (iii) when
validation returns false, nothing is committed, the backing store is
untouched, the session stays open in Edit mode and the status reports
"Save failed: Invalid value"; (iv) Cancel (Esc) never calls `set_value`,
leaves the backing store untouched and closes the session. -/
theorem C1_save_commit_protocol {σ : Type} (reg : String → Option (SEditor σ))
    (launchRes : SettingsItem → Except String Unit) (bk : σ) (app : App σ)
    (ev : Event) :
    ((handleEvent reg launchRes bk app ev).setCalls = [] →
      (handleEvent reg launchRes bk app ev).backing = bk) ∧
    ((handleEvent reg launchRes bk app ev).setCalls ≠ [] →
      ∃ k es pv, ev = .key k ∧ (k.code = .char 's' ∨ k.code = .char 'S') ∧
        app.inputMode = .edit ∧ app.editState = some es ∧
        es.pendingValue = some pv ∧
        es.editor.validateValue bk pv = .ok true ∧
        (handleEvent reg launchRes bk app ev).setCalls = [pv] ∧
        ((handleEvent reg launchRes bk app ev).backing = bk ∨
          es.editor.setValue bk pv =
            .ok ((handleEvent reg launchRes bk app ev).backing))) ∧
    (∀ k es pv, ev = .key k → (k.code = .char 's' ∨ k.code = .char 'S') →
      app.inputMode = .edit → app.editState = some es →
      es.pendingValue = some pv →
      es.editor.validateValue bk pv = .ok false →
      (handleEvent reg launchRes bk app ev).setCalls = [] ∧
      (handleEvent reg launchRes bk app ev).backing = bk ∧
      (handleEvent reg launchRes bk app ev).app.editState = some es ∧
      (handleEvent reg launchRes bk app ev).app.inputMode = .edit ∧
      (handleEvent reg launchRes bk app ev).app.statusMessage =
        some "Save failed: Invalid value") ∧
    (∀ k es, ev = .key k → k.code = .esc → app.inputMode = .edit →
      app.editState = some es →
      (handleEvent reg launchRes bk app ev).setCalls = [] ∧
      (handleEvent reg launchRes bk app ev).backing = bk ∧
      (handleEvent reg launchRes bk app ev).app.editState = none) := by
  cases ev with
  | tick =>
    exact ⟨fun _ => rfl, fun h => absurd rfl h,
      fun k es pv hev => Event.noConfusion hev,
      fun k es hev => Event.noConfusion hev⟩
  | mouse =>
    exact ⟨fun _ => rfl, fun h => absurd rfl h,
      fun k es pv hev => Event.noConfusion hev,
      fun k es hev => Event.noConfusion hev⟩
  | resize w h =>
    exact ⟨fun _ => rfl, fun h => absurd rfl h,
      fun k es pv hev => Event.noConfusion hev,
      fun k es hev => Event.noConfusion hev⟩
  | key k =>
    cases hm : app.inputMode with
    | normal =>
      refine ⟨fun _ => by simp [handleEvent, hm], ?_, ?_, ?_⟩
      · intro h
        exact absurd (by simp [handleEvent, hm]) h
      · intro k' es pv hev hcode hmode
        exact InputMode.noConfusion hmode
      · intro k' es hev hcode hmode
        exact InputMode.noConfusion hmode
    | search =>
      refine ⟨fun _ => by simp [handleEvent, hm], ?_, ?_, ?_⟩
      · intro h
        exact absurd (by simp [handleEvent, hm]) h
      · intro k' es pv hev hcode hmode
        exact InputMode.noConfusion hmode
      · intro k' es hev hcode hmode
        exact InputMode.noConfusion hmode
    | edit =>
      have hred : handleEvent reg launchRes bk app (.key k) =
          handleEditKey bk app k := by
        simp [handleEvent, hm]
      rw [hred]
      cases hes : app.editState with
      | none =>
        refine ⟨fun _ => by simp [handleEditKey, hes], ?_, ?_, ?_⟩
        · intro h
          exact absurd (by simp [handleEditKey, hes]) h
        · intro k' es pv hev hcode hmode hses
          exact Option.noConfusion hses
        · intro k' es hev hcode hmode hses
          exact Option.noConfusion hses
      | some es =>
        cases hc : k.code
        case esc =>
          have hred2 : handleEditKey bk app k = ⟨app.cancelEdit, bk, []⟩ := by
            simp only [handleEditKey, hes, hc]
          refine ⟨fun _ => by rw [hred2], fun h => absurd (by rw [hred2]) h,
            ?_, ?_⟩
          · intro k' es'' pv hev hcode hmode hses hpv hval
            injection hev with hev
            subst hev
            rw [hc] at hcode
            rcases hcode with h | h
            · exact KeyCode.noConfusion h
            · exact KeyCode.noConfusion h
          · intro k' es'' hev hcode hmode hses
            exact ⟨by rw [hred2], by rw [hred2],
              by rw [hred2]; simp [App.cancelEdit]⟩
        case char c =>
          by_cases hsv : c = 's' ∨ c = 'S'
          · have hred2 : handleEditKey bk app k =
                (match (App.saveEdit bk app).err with
                 | none => ⟨(App.saveEdit bk app).app,
                     (App.saveEdit bk app).backing,
                     (App.saveEdit bk app).setCalls⟩
                 | some e =>
                     ⟨{ (App.saveEdit bk app).app with
                         statusMessage := some ("Save failed: " ++ e) },
                       (App.saveEdit bk app).backing,
                       (App.saveEdit bk app).setCalls⟩) := by
              simp only [handleEditKey, hes, hc, if_pos hsv]
            have hcalls : (handleEditKey bk app k).setCalls =
                (App.saveEdit bk app).setCalls := by
              rw [hred2]; cases (App.saveEdit bk app).err <;> rfl
            have hback : (handleEditKey bk app k).backing =
                (App.saveEdit bk app).backing := by
              rw [hred2]; cases (App.saveEdit bk app).err <;> rfl
            refine ⟨?_, ?_, ?_, ?_⟩
            · intro h
              rw [hback]
              exact saveEdit_no_calls_backing bk app (hcalls.symm.trans h)
            · intro h
              rcases saveEdit_calls_shape bk app with hz |
                ⟨es', pv, h1, h2, h3, h4, h5⟩
              · exact absurd (hcalls.trans hz) h
              · refine ⟨k, es', pv, rfl, ?_, rfl, hes.symm.trans h1, h2, h3,
                  hcalls.trans h4, ?_⟩
                · rw [hc]
                  rcases hsv with h' | h'
                  · exact Or.inl (by rw [h'])
                  · exact Or.inr (by rw [h'])
                · rw [hback]
                  exact h5
            · intro k' es'' pv hev hcode hmode hses hpv hval
              injection hses with hses
              subst hses
              have hsave := saveEdit_invalid bk app es pv hes hpv hval
              rw [hred2, hsave]
              exact ⟨rfl, rfl, hes, hm, rfl⟩
            · intro k' es'' hev hcode hmode hses
              injection hev with hev
              subst hev
              rw [hc] at hcode
              exact KeyCode.noConfusion hcode
          · by_cases hsp : c = ' '
            · have hred2 : handleEditKey bk app k =
                  ⟨{ app with editState := some es.confirmPending }, bk, []⟩ := by
                simp only [handleEditKey, hes, hc, if_neg hsv, if_pos hsp]
              refine ⟨fun _ => by rw [hred2], fun h => absurd (by rw [hred2]) h,
                ?_, ?_⟩
              · intro k' es'' pv hev hcode hmode hses hpv hval
                injection hev with hev
                subst hev
                rw [hc] at hcode
                rcases hcode with h | h
                · injection h with h
                  exact (hsv (Or.inl h)).elim
                · injection h with h
                  exact (hsv (Or.inr h)).elim
              · intro k' es'' hev hcode hmode hses
                injection hev with hev
                subst hev
                rw [hc] at hcode
                exact KeyCode.noConfusion hcode
            · have hred2 : handleEditKey bk app k = ⟨app, bk, []⟩ := by
                simp only [handleEditKey, hes, hc, if_neg hsv, if_neg hsp]
              refine ⟨fun _ => by rw [hred2], fun h => absurd (by rw [hred2]) h,
                ?_, ?_⟩
              · intro k' es'' pv hev hcode hmode hses hpv hval
                injection hev with hev
                subst hev
                rw [hc] at hcode
                rcases hcode with h | h
                · injection h with h
                  exact (hsv (Or.inl h)).elim
                · injection h with h
                  exact (hsv (Or.inr h)).elim
              · intro k' es'' hev hcode hmode hses
                injection hev with hev
                subst hev
                rw [hc] at hcode
                exact KeyCode.noConfusion hcode
        all_goals
          exact ⟨fun _ => by simp [handleEditKey, hes, hc],
            fun h => absurd (by simp [handleEditKey, hes, hc]) h,
            by
              intro k' es'' pv hev hcode hmode hses hpv hval
              injection hev with hev
              subst hev
              rw [hc] at hcode
              rcases hcode with h | h
              · exact KeyCode.noConfusion h
              · exact KeyCode.noConfusion h,
            by
              intro k' es'' hev hcode hmode hses
              injection hev with hev
              subst hev
              rw [hc] at hcode
              exact KeyCode.noConfusion hcode⟩

/-- Witness for C1: on a Toggle session whose pending value is the
integer 3 (validation false), the save key commits nothing, keeps the
backing store and the session, and sets the failure status; Esc closes
the session. -/
theorem C1_save_commit_protocol_witness :
    (handleEvent demoReg demoLaunch true (demoEditApp demoInvalidSession)
        (.key ⟨.char 's', false⟩)).setCalls = [] ∧
    (handleEvent demoReg demoLaunch true (demoEditApp demoInvalidSession)
        (.key ⟨.char 's', false⟩)).backing = true ∧
    (handleEvent demoReg demoLaunch true (demoEditApp demoInvalidSession)
        (.key ⟨.char 's', false⟩)).app.editState = some demoInvalidSession ∧
    (handleEvent demoReg demoLaunch true (demoEditApp demoInvalidSession)
        (.key ⟨.char 's', false⟩)).app.statusMessage =
      some "Save failed: Invalid value" ∧
    (handleEvent demoReg demoLaunch true (demoEditApp demoInvalidSession)
        (.key ⟨.esc, false⟩)).app.editState = none := by
  have h := C1_save_commit_protocol demoReg demoLaunch true
    (demoEditApp demoInvalidSession) (.key ⟨.char 's', false⟩)
  have h3 := h.2.2.1 ⟨.char 's', false⟩ demoInvalidSession (.integerV 3) rfl
    (Or.inl rfl) rfl rfl rfl rfl
  have h2 := C1_save_commit_protocol demoReg demoLaunch true
    (demoEditApp demoInvalidSession) (.key ⟨.esc, false⟩)
  have h4 := h2.2.2.2 ⟨.esc, false⟩ demoInvalidSession rfl rfl rfl rfl
  exact ⟨h3.1, h3.2.1, h3.2.2.1, h3.2.2.2.2, h4.2.2⟩

/-! ## C2: the filtered view -/

/-- C2: for every item list, selected category and query, the filtered
view is an ordered subsequence of the item list; an item is in it exactly
when it is in the source list, has the selected category, and (for a
non-empty query) its name, description or a keyword contains the query
case-insensitively; for the empty query the view is exactly the category
filter. -/
theorem C2_filter_view (items : List SettingsItem) (cat query : String) :
    (filterItemsFun items cat query).Sublist items ∧
    (∀ it, it ∈ filterItemsFun items cat query ↔
      it ∈ items ∧ it.category = cat ∧ (query ≠ "" → claimSearchHit query it)) ∧
    (query = "" →
      filterItemsFun items cat query =
        items.filter (fun it => it.category == cat)) := by
  refine ⟨List.filter_sublist _, ?_, ?_⟩
  · intro it
    by_cases hq : query = ""
    · subst hq
      simp [filterItemsFun, List.mem_filter, searchMatch]
    · have hqd : query.data ≠ [] := by
        intro h
        apply hq
        cases query
        simp_all
      simp [filterItemsFun, List.mem_filter, searchMatch, hqd, hq,
        claimSearchHit, ciContains, List.any_eq_true, and_assoc, or_assoc]
  · intro hq
    subst hq
    unfold filterItemsFun
    apply List.filter_congr
    intro x _
    simp [searchMatch]

/-- Witness for C2 at a concrete catalog: the empty query yields exactly
the category filter, and an item matching "apple" by name is in the
filtered view. -/
theorem C2_filter_view_witness :
    filterItemsFun [demoItemA, demoItemB, demoItemC] "General" "" =
      List.filter (fun it => it.category == "General")
        [demoItemA, demoItemB, demoItemC] ∧
    demoItemA ∈ filterItemsFun [demoItemA, demoItemB, demoItemC] "General"
      "apple" :=
  ⟨(C2_filter_view [demoItemA, demoItemB, demoItemC] "General" "").2.2 rfl,
    ((C2_filter_view [demoItemA, demoItemB, demoItemC] "General"
        "apple").2.1 demoItemA).2
      ⟨by simp, rfl, fun _ => Or.inl rfl⟩⟩

/-! ## C3: the item-index bound on an empty filtered view -/

/-- C3 (bug evaluation): starting from a fresh state, searching for "z"
(which matches nothing), returning to Normal, focusing the item list and
pressing Down leaves an empty filtered view with `item_index = 1`: the
guard `item_index < filtered_items.len() - 1` underflows on the empty
view, so the claimed bound (index 0 on an empty view) is broken; a debug
build panics on the same subtraction. -/
theorem C3_empty_view_down_bug :
    c3final.filteredItems = [] ∧ c3final.itemIndex = 1 ∧
    c3final.focusArea = .items ∧ c3final.inputMode = .normal :=
  ⟨rfl, rfl, rfl, rfl⟩

/-! ## C4: re-filtering after category or query changes -/

/-- C4 (counterexample): after searching "bread" (filtered view shrinks
to the Bread item), returning to Normal and pressing `/`, the query is
cleared but the filtered view is the stale one computed for "bread": it
differs from the filter recomputed for the new (empty) query, refuting
the claim for the `/` action. -/
theorem C4_counterexample_slash_stale :
    c4final.inputMode = .search ∧ c4final.searchQuery = "" ∧
    c4final.filteredItems = [demoItemB] ∧
    filterItemsFun c4final.items
      (c4final.categories.getD c4final.categoryIndex "")
      c4final.searchQuery = [demoItemA, demoItemB] ∧
    c4final.filteredItems ≠
      filterItemsFun c4final.items
        (c4final.categories.getD c4final.categoryIndex "")
        c4final.searchQuery :=
  ⟨rfl, rfl, rfl, rfl, by decide⟩

/-- C4 (amended): after every category movement that passes its guard
(Normal mode, Categories focused, Up/Down) and after every Search-mode
character, backspace or Escape, the filtered view equals the filter
recomputed for the new category and query and `item_index` is reset
to 0.  (The `/` action, by contrast, clears the query without
recomputing — see the counterexample.) -/
theorem C4_refilter_on_change {σ : Type} (reg : String → Option (SEditor σ))
    (launchRes : SettingsItem → Except String Unit) (bk : σ) (app : App σ)
    (k : KeyEvent) :
    (app.inputMode = .search →
      (k.code = .esc ∨ k.code = .backspace ∨ ∃ c, k.code = .char c) →
      (handleEvent reg launchRes bk app (.key k)).app.filteredItems =
        filterItemsFun app.items (app.categories.getD app.categoryIndex "")
          ((handleEvent reg launchRes bk app (.key k)).app.searchQuery) ∧
      (handleEvent reg launchRes bk app (.key k)).app.itemIndex = 0) ∧
    (app.inputMode = .normal → app.focusArea = .categories →
      ((k.code = .down ∧ app.categoryIndex < usizeSubOne app.categories.length) ∨
        (k.code = .up ∧ 0 < app.categoryIndex)) →
      (handleEvent reg launchRes bk app (.key k)).app.filteredItems =
        filterItemsFun app.items
          (app.categories.getD
            ((handleEvent reg launchRes bk app (.key k)).app.categoryIndex) "")
          app.searchQuery ∧
      (handleEvent reg launchRes bk app (.key k)).app.itemIndex = 0) := by
  constructor
  · intro hmode hk
    rcases hk with hk | hk | ⟨c, hk⟩ <;>
      exact ⟨by simp [handleEvent, hmode, handleSearchKey, hk, App.runFilter],
        by simp [handleEvent, hmode, handleSearchKey, hk, App.runFilter]⟩
  · intro hmode hfocus hk
    rcases hk with ⟨hk, hguard⟩ | ⟨hk, hguard⟩ <;>
      exact ⟨by simp [handleEvent, hmode, handleNormalKey, hk, hfocus, hguard,
          App.runFilter],
        by simp [handleEvent, hmode, handleNormalKey, hk, hfocus, hguard,
          App.runFilter]⟩

/-- Witness for C4 (amended): Escape in Search mode on a state filtered
for "bread" recomputes the view for the cleared query and resets the
index. -/
theorem C4_refilter_on_change_witness :
    (handleEvent demoReg demoLaunch true c4witApp
        (.key ⟨.esc, false⟩)).app.filteredItems =
      filterItemsFun c4witApp.items
        (c4witApp.categories.getD c4witApp.categoryIndex "")
        ((handleEvent demoReg demoLaunch true c4witApp
            (.key ⟨.esc, false⟩)).app.searchQuery) ∧
    (handleEvent demoReg demoLaunch true c4witApp
        (.key ⟨.esc, false⟩)).app.itemIndex = 0 :=
  (C4_refilter_on_change demoReg demoLaunch true c4witApp ⟨.esc, false⟩).1
    rfl (Or.inl rfl)

/-! ## C5: sessions of kinds Custom, TextInput, NumberInput -/

/-- C5 (counterexample): on an open session of kind Custom whose pending
value validates, the save key runs the uniform save path: `set_value` is
invoked with the pending value, the backing store commits it, and the
session closes with a success status — refuting the claim that Save is
never executed for these kinds. -/
theorem C5_counterexample_save_commits :
    (handleEvent (fun _ => none) demoLaunch [] (demoEditApp demoCustomSession)
        (.key ⟨.char 's', false⟩)).setCalls = [.selection "x"] ∧
    (handleEvent (fun _ => none) demoLaunch [] (demoEditApp demoCustomSession)
        (.key ⟨.char 's', false⟩)).app.editState = none ∧
    (handleEvent (fun _ => none) demoLaunch [] (demoEditApp demoCustomSession)
        (.key ⟨.char 's', false⟩)).app.statusMessage =
      some "✓ Custom Item updated successfully" ∧
    (handleEvent (fun _ => none) demoLaunch [] (demoEditApp demoCustomSession)
        (.key ⟨.char 's', false⟩)).backing = [.selection "x"] :=
  ⟨rfl, rfl, rfl, rfl⟩

/-- C5 (amended): while a session of kind Custom, TextInput or
NumberInput is open, (i) no key of the registry produces such kinds, so
such sessions never arise through `enter_edit_mode` with the shipped
registry; (ii) Esc cancels the session without touching the backing
store; (iii) the confirm keys Enter/Space do nothing (the advertised
hand-off to the external launcher is not wired); and (iv) the save key is
nevertheless accepted and runs the uniform save path, committing a
validated pending value and closing the session with a success status. -/
theorem C5_unsupported_kinds {σ : Type} (reg : String → Option (SEditor σ))
    (launchRes : SettingsItem → Except String Unit) (bk : σ) (app : App σ)
    (es : EditState σ) (k : KeyEvent)
    (hmode : app.inputMode = .edit) (hes : app.editState = some es)
    (htype : es.editorType = .custom ∨ (∃ m, es.editorType = .textInput m) ∨
      (∃ a b, es.editorType = .numberInput a b)) :
    (∀ key t, createEditorKind key = some t →
      t ≠ .custom ∧ (∀ m, t ≠ .textInput m) ∧ (∀ a b, t ≠ .numberInput a b)) ∧
    (k.code = .esc →
      (handleEvent reg launchRes bk app (.key k)).app.editState = none ∧
      (handleEvent reg launchRes bk app (.key k)).setCalls = [] ∧
      (handleEvent reg launchRes bk app (.key k)).backing = bk) ∧
    ((k.code = .enter ∨ k.code = .char ' ') →
      handleEvent reg launchRes bk app (.key k) = ⟨app, bk, []⟩) ∧
    (∀ pv bk', k.code = .char 's' → es.pendingValue = some pv →
      es.editor.validateValue bk pv = .ok true →
      es.editor.setValue bk pv = .ok bk' →
      (handleEvent reg launchRes bk app (.key k)).setCalls = [pv] ∧
      (handleEvent reg launchRes bk app (.key k)).backing = bk' ∧
      (handleEvent reg launchRes bk app (.key k)).app.editState = none ∧
      (handleEvent reg launchRes bk app (.key k)).app.inputMode = .normal ∧
      (handleEvent reg launchRes bk app (.key k)).app.statusMessage =
        some ("✓ " ++ es.itemName ++ " updated successfully")) := by
  refine ⟨?_, ?_, ?_, ?_⟩
  · intro key t h
    unfold createEditorKind at h
    split_ifs at h <;>
      first
        | exact Option.noConfusion h
        | (injection h with h; subst h;
           exact ⟨fun hh => EditorType.noConfusion hh,
             fun m hh => EditorType.noConfusion hh,
             fun a b hh => EditorType.noConfusion hh⟩)
  · intro hk
    refine ⟨?_, ?_, ?_⟩ <;>
      simp [handleEvent, hmode, handleEditKey, hes, hk, App.cancelEdit]
  · intro hk
    have hcp : es.confirmPending = es := by
      unfold EditState.confirmPending
      rcases htype with h | ⟨m, h⟩ | ⟨a, b, h⟩ <;> rw [h]
    obtain ⟨cats, its, fits, ci, ii, fa, im, sq, sm, qf, est⟩ := app
    cases hmode
    cases hes
    rcases hk with hk | hk <;>
      simp [handleEvent, handleEditKey, hk, hcp]
  · intro pv bk' hk hpv hval hset
    obtain ⟨cats, its, fits, ci, ii, fa, im, sq, sm, qf, est⟩ := app
    cases hmode
    cases hes
    have hsave := saveEdit_commit bk
      ⟨cats, its, fits, ci, ii, fa, .edit, sq, sm, qf, some es⟩ es pv bk' rfl
      hpv hval hset
    simp [handleEvent, handleEditKey, hk, hsave]

/-- Witness for C5 (amended): on an open TextInput session, Esc closes it
and Enter leaves the whole state untouched. -/
theorem C5_unsupported_kinds_witness :
    (handleEvent demoReg demoLaunch true (demoEditApp demoTextSession)
        (.key ⟨.esc, false⟩)).app.editState = none ∧
    handleEvent demoReg demoLaunch true (demoEditApp demoTextSession)
      (.key ⟨.enter, false⟩) = ⟨demoEditApp demoTextSession, true, []⟩ := by
  have h1 := (C5_unsupported_kinds demoReg demoLaunch true
    (demoEditApp demoTextSession) demoTextSession ⟨.esc, false⟩ rfl rfl
    (Or.inr (Or.inl ⟨false, rfl⟩))).2.1 rfl
  have h2 := (C5_unsupported_kinds demoReg demoLaunch true
    (demoEditApp demoTextSession) demoTextSession ⟨.enter, false⟩ rfl rfl
    (Or.inr (Or.inl ⟨false, rfl⟩))).2.2.1 (Or.inl rfl)
  exact ⟨h1.1, h2⟩

/-! ## C6: slider adjustment and clamping -/

/-- C6: on an open Slider session with numeric pending value in
[min, max] and non-negative step, Right replaces the pending value by
`min (v + adj) max` and Left by `max (v - adj) min` (adj being the step,
or a tenth of it with SHIFT), both results staying inside [min, max];
moreover the clamp is idempotent: once an adjustment reaches past the
bound, applying it any number of times yields exactly `max` (resp.
exactly `min`). -/
theorem C6_slider_adjust {σ : Type} (reg : String → Option (SEditor σ))
    (launchRes : SettingsItem → Except String Unit) (bk : σ) (app : App σ)
    (es : EditState σ) (mn mx st v : ℚ) (k : KeyEvent)
    (hmode : app.inputMode = .edit) (hes : app.editState = some es)
    (htype : es.editorType = .slider mn mx st)
    (hpend : es.pendingValue = some (.floatV v))
    (hst : 0 ≤ st) (hmn : mn ≤ v) (hmx : v ≤ mx) :
    (k.code = .right →
      (handleEvent reg launchRes bk app (.key k)).app.editState =
        some { es with pendingValue := some (.floatV
          (sliderRightStep mx (sliderAdjust k.shift st) v)) } ∧
      mn ≤ sliderRightStep mx (sliderAdjust k.shift st) v ∧
      sliderRightStep mx (sliderAdjust k.shift st) v ≤ mx) ∧
    (k.code = .left →
      (handleEvent reg launchRes bk app (.key k)).app.editState =
        some { es with pendingValue := some (.floatV
          (sliderLeftStep mn (sliderAdjust k.shift st) v)) } ∧
      mn ≤ sliderLeftStep mn (sliderAdjust k.shift st) v ∧
      sliderLeftStep mn (sliderAdjust k.shift st) v ≤ mx) ∧
    (∀ n, mx ≤ v + sliderAdjust k.shift st →
      (sliderRightStep mx (sliderAdjust k.shift st))^[n + 1] v = mx) ∧
    (∀ n, v - sliderAdjust k.shift st ≤ mn →
      (sliderLeftStep mn (sliderAdjust k.shift st))^[n + 1] v = mn) := by
  have hadj : 0 ≤ sliderAdjust k.shift st := by
    unfold sliderAdjust
    cases k.shift with
    | false => simpa using hst
    | true =>
      simp only [if_true]
      positivity
  refine ⟨?_, ?_, ?_, ?_⟩
  · intro hk
    refine ⟨?_, ?_, ?_⟩
    · simp only [handleEvent, hmode, handleEditKey, hes, hk]
      simp only [EditState.sliderRightKey, htype, hpend, sliderRightStep,
        sliderAdjust]
    · exact le_min (hmn.trans (le_add_of_nonneg_right hadj)) (hmn.trans hmx)
    · exact min_le_right _ _
  · intro hk
    refine ⟨?_, ?_, ?_⟩
    · simp only [handleEvent, hmode, handleEditKey, hes, hk]
      simp only [EditState.sliderLeftKey, htype, hpend, sliderLeftStep,
        sliderAdjust]
    · exact le_max_right _ _
    · exact max_le ((sub_le_self v hadj).trans hmx) (hmn.trans hmx)
  · intro n hpast
    have hfirst : sliderRightStep mx (sliderAdjust k.shift st) v = mx :=
      min_eq_right hpast
    have hfix : sliderRightStep mx (sliderAdjust k.shift st) mx = mx :=
      min_eq_right (le_add_of_nonneg_right hadj)
    rw [Function.iterate_succ_apply, hfirst, Function.iterate_fixed hfix]
  · intro n hpast
    have hfirst : sliderLeftStep mn (sliderAdjust k.shift st) v = mn :=
      max_eq_right hpast
    have hfix : sliderLeftStep mn (sliderAdjust k.shift st) mn = mn :=
      max_eq_right (sub_le_self mn hadj)
    rw [Function.iterate_succ_apply, hfirst, Function.iterate_fixed hfix]

/-- Witness for C6, the spec's own scenario: slider 0..100, step 10,
value 95; one Right press yields exactly 100 (clamped, not 105). -/
theorem C6_slider_adjust_witness :
    (handleEvent demoReg demoLaunch true (demoEditApp demoSliderSession)
        (.key ⟨.right, false⟩)).app.editState =
      some { demoSliderSession with pendingValue := some (.floatV 100) } := by
  have h := (C6_slider_adjust demoReg demoLaunch true
    (demoEditApp demoSliderSession) demoSliderSession 0 100 10 95
    ⟨.right, false⟩ rfl rfl rfl rfl (by norm_num) (by norm_num)
    (by norm_num)).1 rfl
  rw [h.1]
  norm_num [sliderRightStep, sliderAdjust, min_def]

/-! ## C7: Dropdown / ResolutionPicker navigation -/

/-- C7 (counterexample): on an open Dropdown session with an empty
options list, pressing Down moves `selected_option_index` to 1 — the
guard `index < options.len() - 1` underflows — so the index does not stay
within the bounds of the (empty) options list, refuting the claim for
arbitrary options lists. -/
theorem C7_counterexample_empty_options :
    ((handleEvent demoReg demoLaunch true
        (demoEditApp demoEmptyDropdownSession)
        (.key ⟨.down, false⟩)).app.editState.map
      (fun es => es.selectedOptionIndex)) = some 1 ∧
    demoEmptyDropdownSession.options.length = 0 ∧
    ¬ (1 < demoEmptyDropdownSession.options.length) :=
  ⟨rfl, rfl, by decide⟩

/-- C7 (amended): on an open Dropdown or ResolutionPicker session with a
non-empty options list (of realistic length) and an in-bounds index,
Down moves the index up by one clamped at `length - 1`, Up moves it down
by one clamped at 0, both leaving it in bounds with the options
untouched, and the confirm action sets the pending value to the value of
the option at `selected_option_index`. -/
theorem C7_dropdown_nav {σ : Type} (reg : String → Option (SEditor σ))
    (launchRes : SettingsItem → Except String Unit) (bk : σ) (app : App σ)
    (es : EditState σ) (k : KeyEvent)
    (hmode : app.inputMode = .edit) (hes : app.editState = some es)
    (htype : es.editorType = .dropdown ∨ es.editorType = .resolutionPicker)
    (hlen : 0 < es.options.length) (hlt : es.options.length < 2 ^ 64)
    (hidx : es.selectedOptionIndex < es.options.length) :
    (k.code = .down →
      (handleEvent reg launchRes bk app (.key k)).app.editState =
        some es.optionDown ∧
      es.optionDown.selectedOptionIndex =
        (if es.selectedOptionIndex < es.options.length - 1 then
          es.selectedOptionIndex + 1 else es.selectedOptionIndex) ∧
      es.optionDown.selectedOptionIndex < es.options.length ∧
      es.optionDown.options = es.options) ∧
    (k.code = .up →
      (handleEvent reg launchRes bk app (.key k)).app.editState =
        some es.optionUp ∧
      es.optionUp.selectedOptionIndex = es.selectedOptionIndex - 1 ∧
      es.optionUp.selectedOptionIndex < es.options.length ∧
      es.optionUp.options = es.options) ∧
    ((k.code = .enter ∨ k.code = .char ' ') →
      (handleEvent reg launchRes bk app (.key k)).app.editState =
        some es.confirmPending ∧
      es.confirmPending.pendingValue =
        some (es.options.get ⟨es.selectedOptionIndex, hidx⟩).value) := by
  have hub : usizeSubOne es.options.length = es.options.length - 1 :=
    usizeSubOne_eq hlen hlt
  refine ⟨?_, ?_, ?_⟩
  · intro hk
    refine ⟨by simp [handleEvent, hmode, handleEditKey, hes, hk], ?_, ?_, ?_⟩
    · by_cases h : es.selectedOptionIndex < es.options.length - 1 <;>
        simp [EditState.optionDown, hub, h]
    · by_cases h : es.selectedOptionIndex < es.options.length - 1 <;>
        (simp [EditState.optionDown, hub, h]; try omega)
    · by_cases h : es.selectedOptionIndex < es.options.length - 1 <;>
        simp [EditState.optionDown, hub, h]
  · intro hk
    refine ⟨by simp [handleEvent, hmode, handleEditKey, hes, hk], ?_, ?_, ?_⟩
    · by_cases h : es.selectedOptionIndex > 0 <;>
        (simp [EditState.optionUp, h]; try omega)
    · by_cases h : es.selectedOptionIndex > 0 <;>
        (simp [EditState.optionUp, h]; try omega)
    · by_cases h : es.selectedOptionIndex > 0 <;>
        simp [EditState.optionUp, h]
  · intro hk
    constructor
    · rcases hk with hk | hk <;>
        simp [handleEvent, hmode, handleEditKey, hes, hk]
    · unfold EditState.confirmPending
      rcases htype with h | h <;>
        (rw [h]; simp [List.getElem?_eq_getElem hidx])

/-- Witness for C7, the spec's own scenario shape: a Dropdown with three
options positioned on the last one; Down keeps the index at 2 (no
wraparound) and confirm selects the third option's value. -/
theorem C7_dropdown_nav_witness :
    (handleEvent demoReg demoLaunch true (demoEditApp demo3Dropdown)
        (.key ⟨.down, false⟩)).app.editState = some demo3Dropdown.optionDown ∧
    demo3Dropdown.optionDown.selectedOptionIndex = 2 ∧
    demo3Dropdown.confirmPending.pendingValue = some (.selection "c") := by
  have hd := (C7_dropdown_nav demoReg demoLaunch true
    (demoEditApp demo3Dropdown) demo3Dropdown ⟨.down, false⟩ rfl rfl
    (Or.inl rfl) (by decide) (by decide) (by decide)).1 rfl
  have hc := (C7_dropdown_nav demoReg demoLaunch true
    (demoEditApp demo3Dropdown) demo3Dropdown ⟨.enter, false⟩ rfl rfl
    (Or.inl rfl) (by decide) (by decide) (by decide)).2.2 (Or.inl rfl)
  refine ⟨hd.1, ?_, hc.2.trans rfl⟩
  rw [hd.2.1]
  decide

/-! ## C8: opening an edit session -/

/-- C8: when entry succeeds, the new session's pending value is exactly
the current value read from the editor, the option index is 0 and no
error message is set, with the mode switched to Edit; when entry fails
(no editor key, no registered editor, or a failed read of the value or
the options) the application — in particular its mode and its absent
session — is returned unchanged, with an error reported. -/
theorem C8_enter_edit_mode {σ : Type} (reg : String → Option (SEditor σ))
    (bk : σ) (app : App σ) (item : SettingsItem) :
    (∀ key editor currentValue options,
      item.editorKey = some key → reg key = some editor →
      editor.getCurrentValue bk = .ok currentValue →
      editor.getAvailableOptions bk = .ok options →
      app.enterEditMode reg bk item =
        ({ app with
            editState := some
              { itemName := item.name
                editor := editor
                editorType := editor.editorType
                currentValue := currentValue
                pendingValue := some currentValue
                options := options
                selectedOptionIndex := 0
                scrollOffset := 0
                errorMessage := none }
            inputMode := .edit }, none)) ∧
    (∀ app' e, app.enterEditMode reg bk item = (app', some e) → app' = app) ∧
    (item.editorKey = none → ((app.enterEditMode reg bk item).2).isSome) ∧
    (∀ key, item.editorKey = some key → reg key = none →
      ((app.enterEditMode reg bk item).2).isSome) ∧
    (∀ key editor e, item.editorKey = some key → reg key = some editor →
      editor.getCurrentValue bk = .error e →
      ((app.enterEditMode reg bk item).2).isSome) ∧
    (∀ key editor currentValue e, item.editorKey = some key →
      reg key = some editor → editor.getCurrentValue bk = .ok currentValue →
      editor.getAvailableOptions bk = .error e →
      ((app.enterEditMode reg bk item).2).isSome) := by
  refine ⟨?_, ?_, ?_, ?_, ?_, ?_⟩
  · intro key editor currentValue options hk hreg hcv hopts
    simp [App.enterEditMode, hk, hreg, hcv, hopts]
  · intro app' e heq
    unfold App.enterEditMode at heq
    split at heq
    · simpa using congrArg Prod.fst heq |>.symm
    · split at heq
      · simpa using congrArg Prod.fst heq |>.symm
      · split at heq
        · simpa using congrArg Prod.fst heq |>.symm
        · split at heq
          · simpa using congrArg Prod.fst heq |>.symm
          · simp at heq
  · intro hk
    simp [App.enterEditMode, hk]
  · intro key hk hreg
    simp [App.enterEditMode, hk, hreg]
  · intro key editor e hk hreg hcv
    simp [App.enterEditMode, hk, hreg, hcv]
  · intro key editor currentValue e hk hreg hcv hopts
    simp [App.enterEditMode, hk, hreg, hcv, hopts]

/-- Witness for C8: entry succeeds on the editable item with
`pending_value = current_value = Bool true`, index 0 and no error; entry
on an item without an editor key reports a failure. -/
theorem C8_enter_edit_mode_witness :
    demoNormalApp.enterEditMode demoReg true demoEditableItem =
      ({ demoNormalApp with
          editState := some ⟨"Wi-Fi Adapter", boolToggleEditor, .toggle,
            .boolV true, some (.boolV true), [], 0, 0, none⟩
          inputMode := .edit }, none) ∧
    ((demoNormalApp.enterEditMode demoReg true demoItemA).2).isSome :=
  ⟨(C8_enter_edit_mode demoReg true demoNormalApp demoEditableItem).1
      "wifi_adapter_toggle" boolToggleEditor (.boolV true) [] rfl rfl rfl rfl,
    (C8_enter_edit_mode demoReg true demoNormalApp demoItemA).2.2.1 rfl⟩

/-! ## C9: Tick, Mouse, Resize are pure frames -/

/-- C9: handling a Tick, Mouse or Resize event returns the application
and backing store unchanged and performs no `set_value` call, for every
registry, launcher, backing store and application state. -/
theorem C9_tick_mouse_resize_frame {σ : Type}
    (reg : String → Option (SEditor σ))
    (launchRes : SettingsItem → Except String Unit) (bk : σ) (app : App σ)
    (w h : Nat) :
    handleEvent reg launchRes bk app .tick = ⟨app, bk, []⟩ ∧
    handleEvent reg launchRes bk app .mouse = ⟨app, bk, []⟩ ∧
    handleEvent reg launchRes bk app (.resize w h) = ⟨app, bk, []⟩ :=
  ⟨rfl, rfl, rfl⟩

/-! ## C10: Toggle confirm on a non-boolean pending value -/

/-- C10: for an open Toggle session whose pending value is absent or not
a Boolean variant, the confirm action (Enter or Space) sets the pending
value to Boolean true. -/
theorem C10_toggle_confirm_nonbool {σ : Type}
    (reg : String → Option (SEditor σ))
    (launchRes : SettingsItem → Except String Unit) (bk : σ) (app : App σ)
    (es : EditState σ) (k : KeyEvent)
    (hmode : app.inputMode = .edit) (hes : app.editState = some es)
    (htype : es.editorType = .toggle)
    (hpend : ∀ b, es.pendingValue ≠ some (.boolV b))
    (hk : k.code = .enter ∨ k.code = .char ' ') :
    (handleEvent reg launchRes bk app (.key k)).app.editState =
      some { es with pendingValue := some (.boolV true) } := by
  have hconf : es.confirmPending = { es with pendingValue := some (.boolV true) } := by
    unfold EditState.confirmPending
    rw [htype]
    cases hpv : es.pendingValue with
    | none => rfl
    | some v =>
      cases v with
      | boolV b => exact absurd hpv (hpend b)
      | _ => rfl
  rcases hk with hk | hk <;>
    simp [handleEvent, hmode, handleEditKey, hes, hk, hconf]

/-- Witness for C10: a Toggle session whose pending value is the integer
3; Enter turns it into Boolean true. -/
theorem C10_toggle_confirm_nonbool_witness :
    (handleEvent demoReg demoLaunch true (demoEditApp demoInvalidSession)
        (.key ⟨.enter, false⟩)).app.editState =
      some { demoInvalidSession with pendingValue := some (.boolV true) } :=
  C10_toggle_confirm_nonbool demoReg demoLaunch true _ _ _ rfl rfl rfl
    (fun b h => by cases h) (Or.inl rfl)

end TMWT
